import Mathlib

/-!
Verification of the realtime GA4 page-tracker pipeline.

Shallow embedding of the three source files
(`scripts/ga4_client.py`, `scripts/postgres_handler.py`,
`dags/ga4_realtime_dag.py`).  Pure Python functions become Lean
functions; the external collaborators (the GA4 API, the PostgreSQL
server, the pandas/psycopg2 libraries and the wall clock) are passed in
as explicit oracles, so every outcome the Python code can observe is a
value the Lean definitions can be evaluated at.
-/

set_option autoImplicit false

namespace GA4Pipeline

/-! ## Field-name canonicalization: `to_snake` (ga4_client.py, lines 18-21)

    def to_snake(name: str) -> str:
        s = re.sub(r'(.)([A-Z][a-z]+)', r'\1_\2', name)
        s = re.sub(r'([a-z0-9])([A-Z])', r'\1_\2', s)
        return s.replace('.', '_').lower()

The two substitutions are hand-compiled scanners for exactly these two
patterns, with Python's leftmost, non-overlapping `re.sub` semantics and
a greedy `[a-z]+`.  `str.lower()` is modelled by its ASCII case mapping
(the field names handled by the program are ASCII). -/

/-- The `[A-Z]` character class of the regexes in `to_snake` (ASCII). -/
def isAsciiUpper (c : Char) : Bool := 65 ≤ c.toNat && c.toNat ≤ 90

/-- The `[a-z]` character class of the regexes in `to_snake` (ASCII). -/
def isAsciiLower (c : Char) : Bool := 97 ≤ c.toNat && c.toNat ≤ 122

/-- The `[0-9]` character class of the regexes in `to_snake` (ASCII). -/
def isAsciiDigit (c : Char) : Bool := 48 ≤ c.toNat && c.toNat ≤ 57

/-- One character of `str.lower()`: ASCII uppercase letters are shifted
down by 32, everything else is left alone. -/
def lowerChar (c : Char) : Char :=
  if isAsciiUpper c then Char.ofNat (c.toNat + 32) else c

/-- Scanner for `re.sub(r'(.)([A-Z][a-z]+)', r'\1_\2', s)`, structurally
recursive on a fuel argument (any fuel at least the list length gives the
scan's value): at each position try to match any character except a
newline (the `.`), then an uppercase letter, then a maximal nonempty run
of lowercase letters; on a match emit the two groups joined by an
underscore and continue after the match. -/
def sub1Go : Nat → List Char → List Char
  | 0, l => l
  | _ + 1, [] => []
  | _ + 1, [c] => [c]
  | fuel + 1, c0 :: c1 :: rest =>
    let low := rest.takeWhile isAsciiLower
    if c0 ≠ '\n' && isAsciiUpper c1 && !low.isEmpty then
      c0 :: '_' :: c1 :: (low ++ sub1Go fuel (rest.drop low.length))
    else
      c0 :: sub1Go fuel (c1 :: rest)

/-- First substitution of `to_snake`: `re.sub(r'(.)([A-Z][a-z]+)', r'\1_\2', s)`. -/
def sub1 (l : List Char) : List Char := sub1Go l.length l

/-- Scanner for `re.sub(r'([a-z0-9])([A-Z])', r'\1_\2', s)`: a lowercase
letter or digit followed by an uppercase letter gets an underscore
inserted between them; continue after the match (non-overlapping). -/
def sub2Go : Nat → List Char → List Char
  | 0, l => l
  | _ + 1, [] => []
  | _ + 1, [c] => [c]
  | fuel + 1, c0 :: c1 :: rest =>
    if (isAsciiLower c0 || isAsciiDigit c0) && isAsciiUpper c1 then
      c0 :: '_' :: c1 :: sub2Go fuel rest
    else
      c0 :: sub2Go fuel (c1 :: rest)

/-- Second substitution of `to_snake`: `re.sub(r'([a-z0-9])([A-Z])', r'\1_\2', s)`. -/
def sub2 (l : List Char) : List Char := sub2Go l.length l

/-- `.replace('.', '_')` applied to one character. -/
def dotToUnderscore (c : Char) : Char := if c = '.' then '_' else c

/-- `to_snake` from ga4_client.py: the two regex substitutions, then
dot replacement, then lowercasing. -/
def to_snake (name : String) : String :=
  String.mk (((sub2 (sub1 name.data)).map dotToUnderscore).map lowerChar)

example : to_snake "unifiedScreenName" = "unified_screen_name" := by decide
example : to_snake "eventName" = "event_name" := by decide
example : to_snake "screenPageViews" = "screen_page_views" := by decide
example : to_snake "deviceCategory" = "device_category" := by decide
example : to_snake "activeUsers" = "active_users" := by decide

/-! ## Values, Python `float()` and dict operations

Cell values of the normalized frame: dimension values stay strings,
metric values are the exact rationals denoted by their decimal literals
(the claims never exercise floating-point rounding), and `extracted_at`
carries an abstract clock tick. -/

/-- Wall-clock readings are abstract ticks; `pd.Timestamp.now()` returns
the tick of the clock at the moment of the call. -/
abbrev Timestamp := Nat

/-- The exact value of a decimal float literal, kept as
`mant * 10 ^ exp` (a pair of integers, not normalized).  The pipeline
only parses and stores metric values, never computes with them, so this
exact representation is adequate and keeps everything kernel-computable. -/
structure Dec where
  mant : ℤ
  exp : ℤ
deriving DecidableEq

/-- A cell of a normalized record. -/
inductive Value where
  | str (s : String)
  | num (d : Dec)
  | time (t : Timestamp)
deriving DecidableEq

/-- A normalized record: the Python row dict, as an association list in
insertion order with unique keys. -/
abbrev Record := List (String × Value)

/-- Python whitespace stripped by `float()` (space, tab, newline,
carriage return, form feed, vertical tab). -/
def isPySpace (c : Char) : Bool :=
  c = ' ' || c = '\t' || c = '\n' || c = '\r' || c = '\x0c' || c = '\x0b'

/-- Numeric value of a run of ASCII digits. -/
def digitsToNat (l : List Char) : Nat :=
  l.foldl (fun n c => 10 * n + (c.toNat - 48)) 0

/-- Mantissa of a Python float literal: digits with an optional fraction
(`12`, `12.`, `12.5`, `.5`); returns its scaled-decimal value and the
unconsumed rest of the input. -/
def parseMantissa (l : List Char) : Option (Dec × List Char) :=
  let ip := l.takeWhile isAsciiDigit
  let r1 := l.drop ip.length
  match r1 with
  | '.' :: r2 =>
    let fp := r2.takeWhile isAsciiDigit
    let r3 := r2.drop fp.length
    if ip.isEmpty && fp.isEmpty then none
    else some (⟨(digitsToNat ip * 10 ^ fp.length + digitsToNat fp : ℕ), -(fp.length : ℤ)⟩, r3)
  | _ => if ip.isEmpty then none else some (⟨(digitsToNat ip : ℕ), 0⟩, r1)

/-- Optional exponent part of a Python float literal (`e`/`E`, optional
sign, at least one digit, nothing after). -/
def parseExpPart (mant : Dec) : List Char → Option Dec
  | [] => some mant
  | c :: rest =>
    if c = 'e' || c = 'E' then
      let sd : ℤ × List Char :=
        match rest with
        | '+' :: r => (1, r)
        | '-' :: r => (-1, r)
        | r => (1, r)
      let expd := sd.2.takeWhile isAsciiDigit
      if expd.isEmpty || !(sd.2.drop expd.length).isEmpty then none
      else some ⟨mant.mant, mant.exp + sd.1 * (digitsToNat expd : ℤ)⟩
    else none

/-- Python `float(s)` on plain decimal literals: surrounding whitespace,
an optional sign, a decimal mantissa and an optional exponent.  `none`
models the `ValueError` raised on anything else.  (The special forms
`inf`/`nan` and underscore digit separators, which a GA4 metric value
never takes, are outside the model.) -/
def pyFloat? (s : String) : Option Dec :=
  let l := ((s.data.dropWhile isPySpace).reverse.dropWhile isPySpace).reverse
  let sl : ℤ × List Char :=
    match l with
    | '+' :: r => (1, r)
    | '-' :: r => (-1, r)
    | r => (1, r)
  match parseMantissa sl.2 with
  | none => none
  | some (m, rest) =>
    match parseExpPart m rest with
    | none => none
    | some d => some ⟨sl.1 * d.mant, d.exp⟩

example : pyFloat? "340" = some ⟨340, 0⟩ := by decide
example : pyFloat? "12.5" = some ⟨125, -1⟩ := by decide
example : pyFloat? " -2e1 " = some ⟨-2, 1⟩ := by decide
example : pyFloat? "" = none := by decide
example : pyFloat? "abc" = none := by decide
example : pyFloat? "1e" = none := by decide
example : pyFloat? ".5" = some ⟨5, -1⟩ := by decide
example : pyFloat? "1.2.3" = none := by decide

/-- Python dict assignment `d[k] = v`: an existing key keeps its
position and gets the new value; a new key is appended at the end. -/
def dictInsert : Record → String → Value → Record
  | [], k, v => [(k, v)]
  | p :: rest, k, v => if p.1 = k then (k, v) :: rest else p :: dictInsert rest k v

/-- Association lookup (a read of the Python dict / a frame column cell). -/
def alookup (k : String) : Record → Option Value
  | [] => none
  | p :: rest => if p.1 = k then some p.2 else alookup k rest

/-! ## Response shape and `_parse_response_to_df` (ga4_client.py, lines 182-207) -/

/-- One row of a `RunRealtimeReport` response: parallel lists of
dimension and metric values (all strings on the wire). -/
structure ReportRow where
  dimension_values : List String
  metric_values : List String
deriving DecidableEq

/-- A `RunRealtimeReport` response: ordered dimension and metric header
names plus rows. -/
structure ReportResponse where
  dimension_headers : List String
  metric_headers : List String
  rows : List ReportRow
deriving DecidableEq

/-- The sentinel for missing dimension values. -/
def notSet : String := "(not set)"

/-- `dim_value.value or '(not set)'`: an empty dimension value becomes
the sentinel string. -/
def normDim (v : String) : Value := .str (if v = "" then notSet else v)

/-- `float(metric_value.value) if metric_value.value else 0.0`: an empty
metric value becomes `0.0`; a non-empty one goes through `float()`,
whose `ValueError` (`none`) escapes to the enclosing `try`. -/
def normMetric (v : String) : Option Dec :=
  if v = "" then some ⟨0, 0⟩ else pyFloat? v

/-- The dimension half of the row loop:
`for i, dim_value in enumerate(row.dimension_values): d[dim_headers[i]] = ...`.
Runs over the values; `none` models the `IndexError` raised when a row
has more dimension values than there are headers. -/
def buildDims : List String → List String → Record → Option Record
  | _, [], d => some d
  | [], _ :: _, _ => none
  | h :: hs, v :: vs, d => buildDims hs vs (dictInsert d h (normDim v))

/-- The metric half of the row loop:
`for i, metric_value in enumerate(row.metric_values): d[metric_headers[i]] = float(...) ...`;
`none` models an `IndexError` or a `ValueError` from `float()`. -/
def buildMets : List String → List String → Record → Option Record
  | _, [], d => some d
  | [], _ :: _, _ => none
  | h :: hs, v :: vs, d =>
    match normMetric v with
    | none => none
    | some q => buildMets hs vs (dictInsert d h (.num q))

/-- One iteration of `for row in response.rows`: build the dict from the
snake-cased headers, then set `d['report_type']` and `d['extracted_at']`
(the latter from `pd.Timestamp.now()` at tick `t`). -/
def parseRow (dimHs metHs : List String) (row : ReportRow) (reportType : String)
    (t : Timestamp) : Option Record :=
  match buildDims dimHs row.dimension_values [] with
  | none => none
  | some d1 =>
    match buildMets metHs row.metric_values d1 with
    | none => none
    | some d2 =>
      some (dictInsert (dictInsert d2 "report_type" (.str reportType)) "extracted_at" (.time t))

/-- The row loop of `_parse_response_to_df`, starting at row index `i`:
row `i` reads the clock at tick `clock i` (one `pd.Timestamp.now()` call
per appended row).  `none` models an exception escaping the loop. -/
def parseRowsFrom (dimHs metHs : List String) (reportType : String)
    (clock : Nat → Timestamp) : Nat → List ReportRow → Option (List Record)
  | _, [] => some []
  | i, row :: rest =>
    match parseRow dimHs metHs row reportType (clock i) with
    | none => none
    | some rec =>
      match parseRowsFrom dimHs metHs reportType clock (i + 1) rest with
      | none => none
      | some recs => some (rec :: recs)

/-- Body of the `try` in `_parse_response_to_df` once rows are known to
be non-empty: snake-case the headers, then run the row loop. -/
def parseResponseRows (resp : ReportResponse) (reportType : String)
    (clock : Nat → Timestamp) : Option (List Record) :=
  parseRowsFrom (resp.dimension_headers.map to_snake) (resp.metric_headers.map to_snake)
    reportType clock 0 resp.rows

/-- `GA4RealtimeClient._parse_response_to_df`: no rows gives an empty
frame; an exception inside the `try` is caught and also gives an empty
frame; otherwise the list of normalized records. -/
def parse_response_to_df (resp : ReportResponse) (reportType : String)
    (clock : Nat → Timestamp) : List Record :=
  if resp.rows.isEmpty then []
  else
    match parseResponseRows resp reportType clock with
    | none => []
    | some recs => recs

example :
    parseRow ["country"] ["active_users"] ⟨["US"], ["5"]⟩ "t" 3 =
      some [("country", .str "US"), ("active_users", .num ⟨5, 0⟩),
            ("report_type", .str "t"), ("extracted_at", .time 3)] := by decide

example :
    parse_response_to_df ⟨["unifiedScreenName", "country"], ["activeUsers", "screenPageViews"],
        [⟨["/home", "US"], ["12", "340"]⟩]⟩ "active_users_by_page" (fun i => i) =
      [[("unified_screen_name", .str "/home"), ("country", .str "US"),
        ("active_users", .num ⟨12, 0⟩), ("screen_page_views", .num ⟨340, 0⟩),
        ("report_type", .str "active_users_by_page"), ("extracted_at", .time 0)]] := by decide

/-! ## `get_realtime_traffic_sources` (ga4_client.py, lines 104-153)

The GA4 API is an oracle `api : List String → Except String ReportResponse`
giving, for each requested dimension set, either the response or the
exception `run_realtime_report` raised.  The frame is the list of its row
dicts; the pandas column operations (`rename`, `df[col] = ...`,
`df[keep]`) act uniformly per row, which matches pandas on responses
whose rows supply a value for every header. -/

/-- The fallback ladder of dimension-set candidates, in source order. -/
def trafficCandidates : List (List String) :=
  [["sessionSource", "sessionMedium", "sessionCampaign"],
   ["sessionSource", "sessionMedium"],
   ["deviceCategory"],
   ["country"]]

/-- The `df.rename(columns=...)` mapping of the traffic-sources query. -/
def renamePairs : List (String × String) :=
  [("session_source", "source"), ("session_medium", "medium"),
   ("session_campaign", "campaign"),
   ("device_category", "source"), ("country", "source")]

/-- Rename one column label. -/
def renameCol (k : String) : String :=
  match renamePairs.find? (fun p => p.1 = k) with
  | some p => p.2
  | none => k

/-- `df.rename(columns=...)` on one row dict. -/
def renameRecord (r : Record) : Record := r.map (fun p => (renameCol p.1, p.2))

/-- `for col in ["source", "medium", "campaign"]: if col not in df.columns: df[col] = "(not set)"`. -/
def ensureCols (r : Record) : Record :=
  ["source", "medium", "campaign"].foldl
    (fun acc c => if (alookup c acc).isSome then acc else acc ++ [(c, .str notSet)]) r

/-- The retained columns: `keep = [...]` in the source. -/
def keepCols : List String := ["source", "medium", "campaign", "active_users", "report_type", "extracted_at"]

/-- `df[keep]` on one row dict: select the kept columns in order; `none`
models the `KeyError` raised when a column is absent. -/
def selectColsFrom (r : Record) : List String → Option Record
  | [] => some []
  | k :: ks =>
    match alookup k r with
    | none => none
    | some v =>
      match selectColsFrom r ks with
      | none => none
      | some rest => some ((k, v) :: rest)

/-- The rename / fill / select post-processing applied to a non-empty
parsed frame inside the candidate loop. -/
def processTraffic : List Record → Option (List Record)
  | [] => some []
  | r :: rest =>
    match selectColsFrom (ensureCols (renameRecord r)) keepCols with
    | none => none
    | some r2 =>
      match processTraffic rest with
      | none => none
      | some rs => some (r2 :: rs)

/-- One iteration of the candidate loop: issue the query (`none` on a
raised request error, caught by the per-candidate `except`), parse it
(`df.empty` sends the loop to the next candidate), then post-process
(whose exceptions the same `except` also catches). -/
def candResult (api : List String → Except String ReportResponse)
    (clock : Nat → Timestamp) (dims : List String) : Option (List Record) :=
  match api dims with
  | .error _ => none
  | .ok resp =>
    let df := parse_response_to_df resp "traffic_sources" clock
    if df.isEmpty then none
    else processTraffic df

/-- The `for dims in candidates` loop: first candidate producing a
result wins; if all are exhausted, return the empty frame. -/
def trafficLadder (api : List String → Except String ReportResponse)
    (clock : Nat → Timestamp) : List (List String) → List Record
  | [] => []
  | dims :: rest =>
    match candResult api clock dims with
    | some out => out
    | none => trafficLadder api clock rest

/-- `GA4RealtimeClient.get_realtime_traffic_sources`. -/
def get_realtime_traffic_sources (api : List String → Except String ReportResponse)
    (clock : Nat → Timestamp) : List Record :=
  trafficLadder api clock trafficCandidates

/-! ## The Airflow DAG (dags/ga4_realtime_dag.py)

A run of `ga4_realtime_pipeline` modelled at the scheduler boundary:
each task body either succeeds or raises, recorded as a boolean in the
run input; task states and the decision to run each downstream task
follow the declared dependencies and trigger rules. -/

/-- Terminal state of a task in a completed DAG run: it ran and
succeeded, ran and failed, or never ran (skipped / upstream-failed). -/
inductive TaskState where
  | success
  | failed
  | notRun
deriving DecidableEq

/-- Outcomes of the task bodies for one run: whether each would succeed
if executed. -/
structure DagRunInput where
  credsOk : Bool
  activeUsersOk : Bool
  eventsByPageOk : Bool
  conversionsOk : Bool
  trafficSourcesOk : Bool
  overviewOk : Bool
  viewsOk : Bool
deriving DecidableEq

/-- Default Airflow trigger rule `all_success`: run only when every
upstream task succeeded. -/
def triggerAllSuccess (upstream : List TaskState) : Bool :=
  upstream.all (fun s => s = .success)

/-- `trigger_rule='none_failed_min_one_success'` (the rule on
`create_aggregated_views`): no upstream task failed and at least one
succeeded. -/
def triggerNoneFailedMinOneSuccess (upstream : List TaskState) : Bool :=
  upstream.all (fun s => s ≠ .failed) && upstream.any (fun s => s = .success)

/-- `trigger_rule='all_done'` (the rule on `cleanup_old_data`,
`generate_summary` and `end_pipeline`): run once every upstream task has
reached a terminal state — in a completed run, always. -/
def triggerAllDone (_upstream : List TaskState) : Bool := true

/-- State a task ends in, given whether its trigger fired and whether
its body succeeds. -/
def runTask (runs : Bool) (bodyOk : Bool) : TaskState :=
  if runs then (if bodyOk then .success else .failed) else .notRun

/-- `check_credentials`, downstream of the always-succeeding
`start_pipeline` dummy. -/
def checkCredentialsState (inp : DagRunInput) : TaskState :=
  runTask (triggerAllSuccess [.success]) inp.credsOk

/-- The five extraction tasks (default trigger rule, downstream of
`check_credentials`), in DAG declaration order. -/
def extractionStates (inp : DagRunInput) : List TaskState :=
  let gate := triggerAllSuccess [checkCredentialsState inp]
  [runTask gate inp.activeUsersOk,
   runTask gate inp.eventsByPageOk,
   runTask gate inp.conversionsOk,
   runTask gate inp.trafficSourcesOk,
   runTask gate inp.overviewOk]

/-- Whether `create_aggregated_views` runs: its trigger rule evaluated
on the five extraction tasks, its declared upstream. -/
def createViewsRuns (inp : DagRunInput) : Bool :=
  triggerNoneFailedMinOneSuccess (extractionStates inp)

/-- State `create_aggregated_views` ends in. -/
def createViewsState (inp : DagRunInput) : TaskState :=
  runTask (createViewsRuns inp) inp.viewsOk

/-- Whether `cleanup_old_data` runs: its `all_done` trigger rule
evaluated on `create_aggregated_views`, its declared upstream. -/
def cleanupRuns (inp : DagRunInput) : Bool :=
  triggerAllDone [createViewsState inp]

/-! ## `PostgreSQLHandler` (scripts/postgres_handler.py)

The database is an explicit state; each psycopg2 / SQLAlchemy call that
can raise is driven by a boolean or `Except` oracle recording how the
server answered. -/

/-- `self.tables_to_manage` from `PostgreSQLHandler.__init__`. -/
def tables_to_manage : List String :=
  ["active_users_by_page", "events_by_page", "conversions", "traffic_sources", "overview"]

/-! ### `insert_dataframe` (lines 144-156) -/

/-- Result of one `insert_dataframe` call: the table contents afterwards
and whether the call raised to its caller. -/
structure InsertOutcome where
  table : List Record
  raised : Bool
deriving DecidableEq

/-- `df.to_sql(table, engine, if_exists="append", index=False, method="multi")`:
pandas executes the whole batch inside a single transaction, so the
database either accepts every row (`toSqlOk`) or, on an error, rolls the
statement back leaving the table unchanged and raises. -/
def to_sql_append (df table : List Record) (toSqlOk : Bool) : Option (List Record) :=
  if toSqlOk then some (table ++ df) else none

/-- `PostgreSQLHandler.insert_dataframe`: an empty frame just logs and
returns without touching the engine; otherwise `to_sql` runs and any
exception is logged and re-raised. -/
def insert_dataframe (df table : List Record) (toSqlOk : Bool) : InsertOutcome :=
  if df.isEmpty then ⟨table, false⟩
  else
    match to_sql_append df table toSqlOk with
    | some t2 => ⟨t2, false⟩
    | none => ⟨table, true⟩

/-! ### `cleanup_old_data` (lines 238-259) -/

/-- A stored row as the retention logic sees it: its `extracted_at`
timestamp (seconds on an integer timeline) and the rest of its columns,
opaque. -/
structure TsRow where
  extracted_at : ℤ
  payload : String
deriving DecidableEq

/-- The database contents, table name to rows. -/
def TableMap := String → List TsRow

/-- `DELETE FROM t WHERE extracted_at < NOW() - INTERVAL '{h} hours'`
against one table. -/
def deleteOld (tables : TableMap) (t : String) (cutoff : ℤ) : TableMap :=
  fun n => if n = t then (tables n).filter (fun r => !(r.extracted_at < cutoff)) else tables n

/-- `PostgreSQLHandler.cleanup_old_data`: one connection, one
transaction, `NOW()` a single reading `now` (Postgres `NOW()` is the
transaction timestamp).  The loop over the managed tables issues one
`DELETE` each; a per-table failure (`delOk t = false`) is caught and
logged, leaving that table's rows in place; then `conn.commit()`.  A
failure around the loop or at commit (`commitOk = false`) is caught and
rolls the whole transaction back.  The call itself never raises. -/
def cleanup_old_data (tables : TableMap) (hours_to_keep : Nat) (now : ℤ)
    (delOk : String → Bool) (commitOk : Bool) : TableMap :=
  let cutoff : ℤ := now - (hours_to_keep : ℤ) * 3600
  let afterLoop :=
    tables_to_manage.foldl (fun acc t => if delOk t then deleteOld acc t cutoff else acc) tables
  if commitOk then afterLoop else tables

/-! ### `check_database_status` (lines 172-201) -/

/-- How the database answers the calls `check_database_status` makes:
`conn` is the `psycopg2.connect` outcome (note: issued before the `try`
block), `baseTables` the `information_schema.tables` query, `countOf`
the per-table `SELECT COUNT(*)`. -/
structure StatusWorld where
  conn : Except String Unit
  baseTables : Except String (List String)
  countOf : String → Except String Nat

/-- The structured object `check_database_status` returns. -/
inductive StatusObj where
  | ok (tables : List (String × Nat))
  | err (message : String)
deriving DecidableEq

/-- The count-collection loop inside the `try`: for each listed table,
run `SELECT COUNT(*)`; the first failure escapes to the `except`. -/
def collectCounts (w : StatusWorld) : List String → Except String (List (String × Nat))
  | [] => .ok []
  | t :: rest =>
    match w.countOf t with
    | .error e => .error e
    | .ok n =>
      match collectCounts w rest with
      | .error e => .error e
      | .ok stats => .ok ((t, n) :: stats)

/-- `PostgreSQLHandler.check_database_status`: acquire the connection
(outside the `try`: a failure here propagates), then inside the `try`
list the base tables and count each; any exception there is converted to
an error-status object. -/
def check_database_status (w : StatusWorld) : Except String StatusObj :=
  match w.conn with
  | .error e => .error e
  | .ok _ =>
    match (match w.baseTables with
           | .error e => Except.error e
           | .ok ts => collectCounts w ts) with
    | .ok stats => .ok (.ok stats)
    | .error e => .ok (.err e)

/-! ### `__init__` and `init_tables` (lines 13-35, 46-142) -/

/-- Which tables exist in the database schema. -/
structure SchemaState where
  tablesPresent : List String
deriving DecidableEq

/-- One `CREATE TABLE IF NOT EXISTS t (...)` statement. -/
def createTableIfNotExists (s : SchemaState) (t : String) : SchemaState :=
  if t ∈ s.tablesPresent then s else ⟨s.tablesPresent ++ [t]⟩

/-- `PostgreSQLHandler.init_tables`: the five `CREATE TABLE IF NOT
EXISTS` statements (and the `CREATE INDEX IF NOT EXISTS` statements,
which do not change which tables exist) in one transaction; on any
database error (`initOk = false`) the transaction is rolled back, the
error logged and re-raised, leaving the schema unchanged. -/
def init_tables (s : SchemaState) (initOk : Bool) : Except String SchemaState :=
  if initOk then .ok (tables_to_manage.foldl createTableIfNotExists s)
  else .error "error initializing tables"

/-- The constructed handler: what a successful `__init__` hands back. -/
structure PostgreSQLHandlerState where
  schemaTables : List String
deriving DecidableEq

/-- `PostgreSQLHandler.__init__`: stores the connection parameters and
unconditionally calls `self.init_tables()` before the constructor
returns; if that raises, construction fails and no handler exists. -/
def mkPostgreSQLHandler (db : SchemaState) (initOk : Bool) :
    Except String (PostgreSQLHandlerState × SchemaState) :=
  match init_tables db initOk with
  | .error e => .error e
  | .ok db2 => .ok (⟨db2.tablesPresent⟩, db2)

/-! ## Dictionary lemmas -/

/-- The keys of a record, in order. -/
def keysOf (d : Record) : List String := d.map Prod.fst

theorem alookup_dictInsert_self (d : Record) (k : String) (v : Value) :
    alookup k (dictInsert d k v) = some v := by
  induction d with
  | nil => simp [dictInsert, alookup]
  | cons p rest ih =>
    by_cases h : p.1 = k
    · simp [dictInsert, h, alookup]
    · simp [dictInsert, h, alookup, ih]

theorem alookup_dictInsert_ne (d : Record) (k k' : String) (v : Value) (h : k' ≠ k) :
    alookup k' (dictInsert d k v) = alookup k' d := by
  induction d with
  | nil =>
    have hk : ¬ k = k' := fun hh => h hh.symm
    simp [dictInsert, alookup, hk]
  | cons p rest ih =>
    by_cases hp : p.1 = k
    · subst hp
      simp [dictInsert, alookup, Ne.symm h]
    · simp only [dictInsert, if_neg hp]
      by_cases hp' : p.1 = k'
      · simp [alookup, hp']
      · simp [alookup, hp', ih]

theorem dictInsert_of_not_mem (d : Record) (k : String) (v : Value) (h : k ∉ keysOf d) :
    dictInsert d k v = d ++ [(k, v)] := by
  induction d with
  | nil => simp [dictInsert]
  | cons p rest ih =>
    simp only [keysOf, List.map_cons, List.mem_cons, not_or] at h
    simp [dictInsert, Ne.symm h.1, ih h.2]

theorem alookup_none_of_not_mem (d : Record) (k : String) (h : k ∉ keysOf d) :
    alookup k d = none := by
  induction d with
  | nil => simp [alookup]
  | cons p rest ih =>
    simp only [keysOf, List.map_cons, List.mem_cons, not_or] at h
    simp [alookup, Ne.symm h.1, ih h.2]

theorem alookup_append_of_some (d1 d2 : Record) (k : String) (v : Value)
    (h : alookup k d1 = some v) : alookup k (d1 ++ d2) = some v := by
  induction d1 with
  | nil => simp [alookup] at h
  | cons p rest ih =>
    by_cases hp : p.1 = k
    · simpa [alookup, hp] using h
    · simp only [alookup, if_neg hp] at h
      simpa [alookup, hp] using ih h

theorem alookup_append_of_none (d1 d2 : Record) (k : String)
    (h : alookup k d1 = none) : alookup k (d1 ++ d2) = alookup k d2 := by
  induction d1 with
  | nil => simp
  | cons p rest ih =>
    by_cases hp : p.1 = k
    · simp [alookup, hp] at h
    · simp only [alookup, if_neg hp] at h
      simpa [alookup, hp] using ih h

/-! ## Shape of one normalized record (`parseRow`) -/

theorem parseRow_trailer (dimHs metHs : List String) (row : ReportRow) (rt : String)
    (t : Timestamp) (rec : Record) (h : parseRow dimHs metHs row rt t = some rec) :
    alookup "report_type" rec = some (.str rt) ∧
    alookup "extracted_at" rec = some (.time t) := by
  simp only [parseRow] at h
  split at h
  · exact absurd h (by simp)
  · split at h
    · exact absurd h (by simp)
    · have hrec := (Option.some_inj.mp h).symm
      subst hrec
      refine ⟨?_, alookup_dictInsert_self ..⟩
      rw [alookup_dictInsert_ne _ _ _ _ (by decide)]
      exact alookup_dictInsert_self ..

theorem parseRowsFrom_spec (dimHs metHs : List String) (rt : String) (clock : Nat → Timestamp) :
    ∀ (rows : List ReportRow) (i : Nat) (recs : List Record),
      parseRowsFrom dimHs metHs rt clock i rows = some recs →
      recs.length = rows.length ∧
      ∀ j (hj : j < rows.length) (hr : j < recs.length),
        parseRow dimHs metHs (rows.get ⟨j, hj⟩) rt (clock (i + j)) = some (recs.get ⟨j, hr⟩) := by
  intro rows
  induction rows with
  | nil =>
    intro i recs h
    simp only [parseRowsFrom] at h
    refine ⟨by simp [← Option.some_inj.mp h], ?_⟩
    intro j hj
    exact absurd hj (by simp)
  | cons row rest ih =>
    intro i recs h
    cases hp : parseRow dimHs metHs row rt (clock i) with
    | none => simp [parseRowsFrom, hp] at h
    | some rec =>
      cases hrest : parseRowsFrom dimHs metHs rt clock (i + 1) rest with
      | none => simp [parseRowsFrom, hp, hrest] at h
      | some recs' =>
        simp only [parseRowsFrom, hp, hrest] at h
        have hrecs := (Option.some_inj.mp h).symm
        subst hrecs
        obtain ⟨hlen, hget⟩ := ih (i + 1) recs' hrest
        refine ⟨by simp [hlen], ?_⟩
        intro j hj hr'
        cases j with
        | zero => simpa using hp
        | succ j' =>
          have hstep : i + (j' + 1) = (i + 1) + j' := by omega
          rw [hstep]
          exact hget j' (by simpa using hj) (by simpa using hr')

/-! ## Claim C1 -/

/-- C1 (amended): for every non-empty response whose parsing succeeds,
normalization produces exactly one record per response row and every
record's `report_type` equals the caller-supplied constant; but
`extracted_at` is captured per row, not once per response: record `j`
carries the clock reading of the `j`-th `pd.Timestamp.now()` call, so
records of one response agree only when the clock did not advance
between rows. -/
theorem C1_normalization_shape (resp : ReportResponse) (rt : String)
    (clock : Nat → Timestamp) (recs : List Record)
    (_hne : resp.rows ≠ []) (h : parseResponseRows resp rt clock = some recs) :
    recs.length = resp.rows.length ∧
    (∀ r ∈ recs, alookup "report_type" r = some (.str rt)) ∧
    (∀ j (hj : j < recs.length),
      alookup "extracted_at" (recs.get ⟨j, hj⟩) = some (.time (clock j))) := by
  unfold parseResponseRows at h
  obtain ⟨hlen, hget⟩ := parseRowsFrom_spec _ _ _ _ resp.rows 0 recs h
  refine ⟨hlen, ?_, ?_⟩
  · intro r hr
    obtain ⟨⟨j, hj⟩, rfl⟩ := List.mem_iff_get.mp hr
    have hj' : j < resp.rows.length := hlen ▸ hj
    exact (parseRow_trailer _ _ _ _ _ _ (by simpa using hget j hj' hj)).1
  · intro j hj
    have hj' : j < resp.rows.length := hlen ▸ hj
    exact (parseRow_trailer _ _ _ _ _ _ (by simpa using hget j hj' hj)).2

/-- A two-row response for C1's counterexample. -/
def twoRowResp : ReportResponse :=
  ⟨["country"], ["activeUsers"], [⟨["US"], ["1"]⟩, ⟨["DE"], ["2"]⟩]⟩

/-- Its normalization under a clock that advances one tick per
`pd.Timestamp.now()` call. -/
def twoRowRecs : List Record :=
  parse_response_to_df twoRowResp "active_users_by_page" (fun i => i)

/-- C1 counterexample: a non-empty response that parses without error
but whose two records carry different `extracted_at` values, because
`pd.Timestamp.now()` is called once per row and the clock advanced
between the calls — refuting "one per response, not per row". -/
theorem C1_counterexample :
    parseResponseRows twoRowResp "active_users_by_page" (fun i => i) = some twoRowRecs ∧
    twoRowResp.rows ≠ [] ∧
    alookup "extracted_at" (twoRowRecs.getD 0 []) = some (.time 0) ∧
    alookup "extracted_at" (twoRowRecs.getD 1 []) = some (.time 1) ∧
    Value.time 0 ≠ Value.time 1 := by decide

/-- A one-row response for C1's witness. -/
def c1resp : ReportResponse := ⟨["country"], ["activeUsers"], [⟨["US"], ["5"]⟩]⟩

/-- Normalization of `c1resp` with the clock starting at tick 7. -/
def c1recs : List Record :=
  [[("country", .str "US"), ("active_users", .num ⟨5, 0⟩),
    ("report_type", .str "t"), ("extracted_at", .time 7)]]

theorem C1_witness :
    (c1resp.rows ≠ [] ∧ parseResponseRows c1resp "t" (fun i => i + 7) = some c1recs) ∧
    (c1recs.length = c1resp.rows.length ∧
     (∀ r ∈ c1recs, alookup "report_type" r = some (.str "t")) ∧
     (∀ j (hj : j < c1recs.length),
       alookup "extracted_at" (c1recs.get ⟨j, hj⟩) = some (.time (j + 7)))) :=
  ⟨⟨by decide, by decide⟩,
   C1_normalization_shape c1resp "t" (fun i => i + 7) c1recs (by decide) (by decide)⟩

/-! ## Exact shape of a parsed row under distinct header names -/

theorem keys_append (d1 d2 : Record) : keysOf (d1 ++ d2) = keysOf d1 ++ keysOf d2 := by
  simp [keysOf]

theorem keys_zip_map {α : Type} (f : α → Value) :
    ∀ (hs : List String) (vs : List α),
      keysOf ((hs.zip vs).map (fun p => (p.1, f p.2))) = hs.take vs.length := by
  intro hs
  induction hs with
  | nil => intro vs; simp [keysOf]
  | cons h hs ih =>
    intro vs
    cases vs with
    | nil => simp [keysOf]
    | cons v vs => simp [keysOf, List.zip_cons_cons] at ih ⊢; exact ih vs

theorem buildDims_eq :
    ∀ (vs hs : List String) (d : Record),
      vs.length ≤ hs.length →
      (∀ h ∈ hs.take vs.length, h ∉ keysOf d) →
      (hs.take vs.length).Nodup →
      buildDims hs vs d = some (d ++ (hs.zip vs).map (fun p => (p.1, normDim p.2))) := by
  intro vs
  induction vs with
  | nil => intro hs d _ _ _; simp [buildDims]
  | cons v vs ih =>
    intro hs d hlen hfresh hnd
    cases hs with
    | nil => simp at hlen
    | cons h hs =>
      simp only [List.length_cons, List.take_succ_cons] at hfresh hnd
      have hh : h ∉ keysOf d := hfresh h (by simp)
      have hstep : dictInsert d h (normDim v) = d ++ [(h, normDim v)] :=
        dictInsert_of_not_mem d h _ hh
      simp only [buildDims, hstep]
      rw [ih hs (d ++ [(h, normDim v)]) (by simpa using hlen) ?_ (by simpa using hnd.of_cons)]
      · simp [List.zip_cons_cons]
      · intro h' hmem
        rw [keys_append]
        simp only [List.mem_append, keysOf, List.map_cons, List.map_nil]
        rintro (hc | hc)
        · exact hfresh h' (by simp [hmem]) hc
        · simp at hc
          rw [hc] at hmem
          exact (List.nodup_cons.mp hnd).1 hmem

theorem buildMets_eq :
    ∀ (vs hs : List String) (d : Record),
      vs.length ≤ hs.length →
      (∀ h ∈ hs.take vs.length, h ∉ keysOf d) →
      (hs.take vs.length).Nodup →
      (∀ v ∈ vs, (normMetric v).isSome) →
      buildMets hs vs d =
        some (d ++ (hs.zip vs).map (fun p => (p.1, .num ((normMetric p.2).getD ⟨0, 0⟩)))) := by
  intro vs
  induction vs with
  | nil => intro hs d _ _ _ _; simp [buildMets]
  | cons v vs ih =>
    intro hs d hlen hfresh hnd hsome
    cases hs with
    | nil => simp at hlen
    | cons h hs =>
      simp only [List.length_cons, List.take_succ_cons] at hfresh hnd
      have hh : h ∉ keysOf d := hfresh h (by simp)
      obtain ⟨q, hq⟩ := Option.isSome_iff_exists.mp (hsome v (by simp))
      have hstep : dictInsert d h (.num q) = d ++ [(h, .num q)] :=
        dictInsert_of_not_mem d h _ hh
      simp only [buildMets, hq, hstep]
      rw [ih hs (d ++ [(h, Value.num q)]) (by simpa using hlen) ?_ (by simpa using hnd.of_cons)
          (fun v' hv' => hsome v' (by simp [hv']))]
      · simp [List.zip_cons_cons, hq]
      · intro h' hmem
        rw [keys_append]
        simp only [List.mem_append, keysOf, List.map_cons, List.map_nil]
        rintro (hc | hc)
        · exact hfresh h' (by simp [hmem]) hc
        · simp at hc
          rw [hc] at hmem
          exact (List.nodup_cons.mp hnd).1 hmem

theorem get_mem_take {α : Type} :
    ∀ (l : List α) (n i : Nat) (h : i < l.length), i < n → l.get ⟨i, h⟩ ∈ l.take n := by
  intro l
  induction l with
  | nil => intro n i h _; exact absurd h (by simp)
  | cons a l ih =>
    intro n i h hin
    cases n with
    | zero => omega
    | succ n =>
      cases i with
      | zero => simp
      | succ i =>
        simp only [List.get_cons_succ, List.take_succ_cons, List.mem_cons]
        exact Or.inr (ih n i (by simpa using h) (by omega))

theorem alookup_zip_map {α : Type} (f : α → Value) :
    ∀ (i : Nat) (hs : List String) (vs : List α) (hi : i < vs.length) (hh : i < hs.length),
      (hs.take vs.length).Nodup →
      alookup (hs.get ⟨i, hh⟩) ((hs.zip vs).map (fun p => (p.1, f p.2))) =
        some (f (vs.get ⟨i, hi⟩)) := by
  intro i
  induction i with
  | zero =>
    intro hs vs hi hh _
    cases hs with
    | nil => exact absurd hh (by simp)
    | cons h hs =>
      cases vs with
      | nil => exact absurd hi (by simp)
      | cons v vs => simp [List.zip_cons_cons, alookup]
  | succ i ih =>
    intro hs vs hi hh hnd
    cases hs with
    | nil => exact absurd hh (by simp)
    | cons h hs =>
      cases vs with
      | nil => exact absurd hi (by simp)
      | cons v vs =>
        simp only [List.length_cons, List.take_succ_cons, List.nodup_cons] at hnd hi
        have hmemtake : hs.get ⟨i, by simpa using hh⟩ ∈ hs.take vs.length :=
          get_mem_take hs vs.length i _ (by omega)
        have hne : ¬ h = hs.get ⟨i, by simpa using hh⟩ := by
          intro hcontr
          rw [← hcontr] at hmemtake
          exact hnd.1 hmemtake
        simp only [List.zip_cons_cons, List.map_cons, List.get_cons_succ, alookup, if_neg hne]
        exact ih hs vs (by omega) (by simpa using hh) hnd.2

/-- `parseRow` on a well-formed row whose header names are pairwise
distinct and avoid the two trailer keys: the record is exactly the
header/value pairs in order, then the two trailer fields. -/
theorem parseRow_eq (dimHs metHs : List String) (dvs mvs : List String) (rt : String)
    (t : Timestamp)
    (hld : dvs.length ≤ dimHs.length) (hlm : mvs.length ≤ metHs.length)
    (hnd : (dimHs.take dvs.length ++ (metHs.take mvs.length ++ ["report_type", "extracted_at"])).Nodup)
    (hsome : ∀ v ∈ mvs, (normMetric v).isSome) :
    parseRow dimHs metHs ⟨dvs, mvs⟩ rt t =
      some ((dimHs.zip dvs).map (fun p => (p.1, normDim p.2)) ++
            ((metHs.zip mvs).map (fun p => (p.1, Value.num ((normMetric p.2).getD ⟨0, 0⟩))) ++
             [("report_type", .str rt), ("extracted_at", .time t)])) := by
  rw [List.nodup_append, List.nodup_append] at hnd
  obtain ⟨hndD, ⟨hndM, hndT, hdisMT⟩, hdisD⟩ := hnd
  have hD : buildDims dimHs dvs [] =
      some ([] ++ (dimHs.zip dvs).map (fun p => (p.1, normDim p.2))) :=
    buildDims_eq dvs dimHs [] hld (by simp [keysOf]) hndD
  have hkeysD : keysOf ((dimHs.zip dvs).map (fun p => (p.1, normDim p.2))) =
      dimHs.take dvs.length := keys_zip_map _ _ _
  have hM : buildMets metHs mvs ((dimHs.zip dvs).map (fun p => (p.1, normDim p.2))) =
      some ((dimHs.zip dvs).map (fun p => (p.1, normDim p.2)) ++
            (metHs.zip mvs).map (fun p => (p.1, Value.num ((normMetric p.2).getD ⟨0, 0⟩)))) := by
    refine buildMets_eq mvs metHs _ hlm ?_ hndM hsome
    intro h hmem
    rw [hkeysD]
    intro hcontr
    exact (hdisD hcontr) (by simp [hmem])
  simp only [parseRow, hD, List.nil_append, hM]
  have hkeysM : keysOf ((metHs.zip mvs).map (fun p => (p.1, Value.num ((normMetric p.2).getD ⟨0, 0⟩)))) =
      metHs.take mvs.length := keys_zip_map (fun v => Value.num ((normMetric v).getD ⟨0, 0⟩)) metHs mvs
  have hrt : ("report_type" : String) ∉
      keysOf ((dimHs.zip dvs).map (fun p => (p.1, normDim p.2)) ++
              (metHs.zip mvs).map (fun p => (p.1, Value.num ((normMetric p.2).getD ⟨0, 0⟩)))) := by
    rw [keys_append, hkeysD, hkeysM]
    simp only [List.mem_append]
    rintro (hc | hc)
    · exact (hdisD hc) (by simp)
    · exact (hdisMT hc) (by simp)
  rw [dictInsert_of_not_mem _ _ _ hrt]
  have hea : ("extracted_at" : String) ∉
      keysOf ((dimHs.zip dvs).map (fun p => (p.1, normDim p.2)) ++
              (metHs.zip mvs).map (fun p => (p.1, Value.num ((normMetric p.2).getD ⟨0, 0⟩))) ++
              [("report_type", Value.str rt)]) := by
    rw [keys_append, keys_append, hkeysD, hkeysM]
    simp only [List.mem_append, keysOf, List.map_cons, List.map_nil]
    rintro ((hc | hc) | hc)
    · exact (hdisD hc) (by simp)
    · exact (hdisMT hc) (by simp)
    · simp at hc
  rw [dictInsert_of_not_mem _ _ _ hea]
  simp [List.append_assoc]

/-! ## Claim C3 -/

theorem parseRowsFrom_none_of_bad_row (dimHs metHs : List String) (rt : String)
    (clock : Nat → Timestamp) (row : ReportRow)
    (hbad : ∀ t, parseRow dimHs metHs row rt t = none) :
    ∀ (rows : List ReportRow) (i : Nat), row ∈ rows →
      parseRowsFrom dimHs metHs rt clock i rows = none := by
  intro rows
  induction rows with
  | nil => intro i h; exact absurd h (by simp)
  | cons r rest ih =>
    intro i hmem
    rcases List.mem_cons.mp hmem with hr | hr
    · subst hr
      simp [parseRowsFrom, hbad (clock i)]
    · cases hp : parseRow dimHs metHs r rt (clock i) with
      | none => simp [parseRowsFrom, hp]
      | some rec => simp [parseRowsFrom, hp, ih (i + 1) hr]

/-- C3 (amended): during normalization of a response row, a missing
(empty) dimension value maps to the sentinel `"(not set)"` and a missing
(empty) metric value maps to `0.0` (first conjunct, for any row whose
headers are distinct and whose non-empty metric values parse); but an
unparseable non-empty metric value is not mapped to `0.0`: it raises out
of the row loop, so the whole response yields an empty result set and
none of the other rows survive (second conjunct). -/
theorem C3_missing_values :
    (∀ (dimHs metHs dvs mvs : List String) (rt : String) (t : Timestamp),
      dvs.length ≤ dimHs.length → mvs.length ≤ metHs.length →
      (dimHs.take dvs.length ++ (metHs.take mvs.length ++ ["report_type", "extracted_at"])).Nodup →
      (∀ v ∈ mvs, (normMetric v).isSome) →
      ∃ rec, parseRow dimHs metHs ⟨dvs, mvs⟩ rt t = some rec ∧
        (∀ i (hi : i < dvs.length) (hh : i < dimHs.length), dvs.get ⟨i, hi⟩ = "" →
          alookup (dimHs.get ⟨i, hh⟩) rec = some (.str notSet)) ∧
        (∀ i (hi : i < mvs.length) (hh : i < metHs.length), mvs.get ⟨i, hi⟩ = "" →
          alookup (metHs.get ⟨i, hh⟩) rec = some (.num ⟨0, 0⟩))) ∧
    (∀ (resp : ReportResponse) (rt : String) (clock : Nat → Timestamp) (row : ReportRow),
      row ∈ resp.rows →
      (∀ t, parseRow (resp.dimension_headers.map to_snake) (resp.metric_headers.map to_snake)
              row rt t = none) →
      parse_response_to_df resp rt clock = []) := by
  constructor
  · intro dimHs metHs dvs mvs rt t hld hlm hnd hsome
    refine ⟨_, parseRow_eq dimHs metHs dvs mvs rt t hld hlm hnd hsome, ?_, ?_⟩
    · intro i hi hh hval
      rw [List.nodup_append, List.nodup_append] at hnd
      obtain ⟨hndD, ⟨hndM, hndT, hdisMT⟩, hdisD⟩ := hnd
      rw [alookup_append_of_some _ _ _ _ (alookup_zip_map normDim i dimHs dvs hi hh hndD)]
      simp only [List.get_eq_getElem] at hval
      simp [normDim, hval, notSet]
    · intro i hi hh hval
      rw [List.nodup_append, List.nodup_append] at hnd
      obtain ⟨hndD, ⟨hndM, hndT, hdisMT⟩, hdisD⟩ := hnd
      have hmem : metHs.get ⟨i, hh⟩ ∈ metHs.take mvs.length :=
        get_mem_take metHs mvs.length i hh hi
      simp only [List.get_eq_getElem] at hmem hval
      have hnotdim : alookup (metHs.get ⟨i, hh⟩)
          ((dimHs.zip dvs).map (fun p => (p.1, normDim p.2))) = none := by
        apply alookup_none_of_not_mem
        rw [keys_zip_map]
        intro hcontr
        exact (hdisD hcontr) (by simp [hmem])
      rw [alookup_append_of_none _ _ _ hnotdim,
        alookup_append_of_some _ _ _ _
          (alookup_zip_map (fun v => Value.num ((normMetric v).getD ⟨0, 0⟩)) i metHs mvs hi hh hndM)]
      simp [normMetric, hval]
  · intro resp rt clock row hmem hbad
    have hnone := parseRowsFrom_none_of_bad_row _ _ rt clock row hbad resp.rows 0 hmem
    have hne : resp.rows.isEmpty = false := by
      cases hrows : resp.rows with
      | nil => rw [hrows] at hmem; exact absurd hmem (by simp)
      | cons a l => simp
    simp [parse_response_to_df, hne, parseResponseRows, hnone]

/-- A two-row response whose second row carries the unparseable metric
value `"abc"`. -/
def badMetricResp : ReportResponse :=
  ⟨["country"], ["activeUsers"], [⟨["US"], ["3"]⟩, ⟨["DE"], ["abc"]⟩]⟩

/-- C3 counterexample: the response has two rows and the first is
perfectly well formed, yet because the second row's metric value is
non-empty and unparseable the whole response normalizes to the empty
result set — the unparseable value is not mapped to `0.0` and the other
row is not normalized. -/
theorem C3_counterexample :
    parse_response_to_df badMetricResp "conversions" (fun i => i) = [] ∧
    badMetricResp.rows.length = 2 ∧
    (badMetricResp.rows.getD 1 ⟨[], []⟩).metric_values = ["abc"] ∧
    ("abc" : String) ≠ "" ∧ pyFloat? "abc" = none ∧
    parse_response_to_df ⟨["country"], ["activeUsers"], [⟨["US"], ["3"]⟩]⟩ "conversions"
        (fun i => i) ≠ [] := by decide

theorem C3_witness :
    ((["country"] : List String).length ≤ (["country"] : List String).length ∧
     (["active_users"] : List String).length ≤ (["active_users"] : List String).length ∧
     ((["country"] : List String).take 1 ++
       ((["active_users"] : List String).take 1 ++ ["report_type", "extracted_at"])).Nodup ∧
     (∀ v ∈ (["" ] : List String), (normMetric v).isSome) ∧
     (∃ rec, parseRow ["country"] ["active_users"] ⟨[""], [""]⟩ "conversions" 5 = some rec ∧
       (∀ i (hi : i < ([""] : List String).length) (hh : i < (["country"] : List String).length),
          ([""] : List String).get ⟨i, hi⟩ = "" →
          alookup ((["country"] : List String).get ⟨i, hh⟩) rec = some (.str notSet)) ∧
       (∀ i (hi : i < ([""] : List String).length) (hh : i < (["active_users"] : List String).length),
          ([""] : List String).get ⟨i, hi⟩ = "" →
          alookup ((["active_users"] : List String).get ⟨i, hh⟩) rec = some (.num ⟨0, 0⟩)))) ∧
    ((⟨["DE"], ["abc"]⟩ : ReportRow) ∈ badMetricResp.rows ∧
     parse_response_to_df badMetricResp "conversions" (fun i => i + 3) = []) :=
  ⟨⟨by decide, by decide, by decide, by decide,
    C3_missing_values.1 ["country"] ["active_users"] [""] [""] "conversions" 5
      (by decide) (by decide) (by decide) (by decide)⟩,
   ⟨by decide,
    C3_missing_values.2 badMetricResp "conversions" (fun i => i + 3) ⟨["DE"], ["abc"]⟩
      (by decide) (fun t => rfl)⟩⟩

/-! ## Character lemmas for `to_snake` -/

theorem char_toNat_ofNat (n : Nat) (h : n < 55296) : (Char.ofNat n).toNat = n := by
  have hv : n.isValidChar := Or.inl (by omega)
  rw [Char.ofNat, dif_pos hv]
  rfl

theorem upper_bounds (c : Char) (h : isAsciiUpper c = true) : 65 ≤ c.toNat ∧ c.toNat ≤ 90 := by
  simpa [isAsciiUpper] using h

theorem lower_bounds (c : Char) (h : isAsciiLower c = true) : 97 ≤ c.toNat ∧ c.toNat ≤ 122 := by
  simpa [isAsciiLower] using h

theorem digit_bounds (c : Char) (h : isAsciiDigit c = true) : 48 ≤ c.toNat ∧ c.toNat ≤ 57 := by
  simpa [isAsciiDigit] using h

theorem not_upper_of_lower (c : Char) (h : isAsciiLower c = true) : isAsciiUpper c = false := by
  have := lower_bounds c h
  simp [isAsciiUpper]
  omega

theorem not_upper_of_digit (c : Char) (h : isAsciiDigit c = true) : isAsciiUpper c = false := by
  have := digit_bounds c h
  simp [isAsciiUpper]
  omega

theorem not_lower_of_upper (c : Char) (h : isAsciiUpper c = true) : isAsciiLower c = false := by
  have := upper_bounds c h
  simp [isAsciiLower]
  omega

theorem not_digit_of_upper (c : Char) (h : isAsciiUpper c = true) : isAsciiDigit c = false := by
  have := upper_bounds c h
  simp [isAsciiDigit]
  omega

theorem lowerChar_of_not_upper (c : Char) (h : isAsciiUpper c = false) : lowerChar c = c := by
  simp [lowerChar, h]

theorem isAsciiUpper_lowerChar (c : Char) : isAsciiUpper (lowerChar c) = false := by
  by_cases h : isAsciiUpper c
  · have hb := upper_bounds c h
    unfold lowerChar
    rw [if_pos h]
    simp only [isAsciiUpper]
    rw [char_toNat_ofNat _ (by omega)]
    have hgt : ¬ (c.toNat + 32 ≤ 90) := by omega
    simp [hgt]
  · rw [lowerChar_of_not_upper c (by simpa using h)]
    simpa using h

theorem lowerChar_ne_dot (c : Char) (h : c ≠ '.') : lowerChar c ≠ '.' := by
  by_cases hu : isAsciiUpper c
  · have hb := upper_bounds c hu
    simp only [lowerChar, if_pos hu]
    intro heq
    have := congrArg Char.toNat heq
    rw [char_toNat_ofNat _ (by omega)] at this
    have hdot : ('.' : Char).toNat = 46 := by decide
    omega
  · rw [lowerChar_of_not_upper c (by simpa using hu)]
    exact h

theorem dotToUnderscore_ne_dot (c : Char) : dotToUnderscore c ≠ '.' := by
  by_cases h : c = '.'
  · simp [dotToUnderscore, h]
  · simp [dotToUnderscore, h]

/-! ## Claim C4 -/

/-- C4: `to_snake` reproduces the three specified examples exactly, and
the general insertion rule holds schematically: an uppercase letter
following a lowercase letter or digit gets a separator (conjunct 4), a
capitalized word following a capital letter gets a separator
(conjunct 5), literal dots become underscores and the result is
lowercased (conjunct 6 and the lowercasing in 4 and 5). -/
theorem C4_to_snake_spec :
    to_snake "unifiedScreenName" = "unified_screen_name" ∧
    to_snake "eventName" = "event_name" ∧
    to_snake "screenPageViews" = "screen_page_views" ∧
    (∀ a B : Char, (isAsciiLower a = true ∨ isAsciiDigit a = true) → isAsciiUpper B = true →
      to_snake (String.mk [a, B]) = String.mk [a, '_', lowerChar B]) ∧
    (∀ A B c : Char, isAsciiUpper A = true → isAsciiUpper B = true → isAsciiLower c = true →
      to_snake (String.mk [A, B, c]) = String.mk [lowerChar A, '_', lowerChar B, c]) ∧
    to_snake "a.b" = "a_b" := by
  refine ⟨by decide, by decide, by decide, ?_, ?_, by decide⟩
  · intro a B ha hB
    have hadot : a ≠ '.' := by
      rintro rfl
      rcases ha with h | h <;> exact absurd h (by decide)
    have haup : isAsciiUpper a = false := by
      rcases ha with h | h
      · exact not_upper_of_lower a h
      · exact not_upper_of_digit a h
    have hBdot : B ≠ '.' := by
      rintro rfl
      exact absurd hB (by decide)
    have hor : (isAsciiLower a || isAsciiDigit a) = true := by
      rcases ha with h | h <;> simp [h]
    have h1 : sub1 [a, B] = [a, B] := by
      simp [sub1, sub1Go]
    have h2 : sub2 [a, B] = [a, '_', B] := by
      simp [sub2, sub2Go, hor, hB]
    show String.mk _ = _
    rw [show (String.mk [a, B]).data = [a, B] from rfl, h1, h2]
    simp [dotToUnderscore, hadot, hBdot, lowerChar_of_not_upper a haup,
      lowerChar_of_not_upper '_' (by decide)]
  · intro A B c hA hB hc
    have hAnl : A ≠ '\n' := by
      rintro rfl
      exact absurd hA (by decide)
    have hAdot : A ≠ '.' := by rintro rfl; exact absurd hA (by decide)
    have hBdot : B ≠ '.' := by rintro rfl; exact absurd hB (by decide)
    have hcdot : c ≠ '.' := by rintro rfl; exact absurd hc (by decide)
    have h1 : sub1 [A, B, c] = [A, '_', B, c] := by
      simp [sub1, sub1Go, hc, hAnl, hB]
    have h2 : sub2 [A, '_', B, c] = [A, '_', B, c] := by
      simp [sub2, sub2Go, not_lower_of_upper A hA, not_digit_of_upper A hA,
        not_lower_of_upper B hB, not_digit_of_upper B hB,
        show isAsciiLower '_' = false from by decide,
        show isAsciiDigit '_' = false from by decide]
    show String.mk _ = _
    rw [show (String.mk [A, B, c]).data = [A, B, c] from rfl, h1, h2]
    simp [dotToUnderscore, hAdot, hBdot, hcdot,
      lowerChar_of_not_upper '_' (by decide),
      lowerChar_of_not_upper c (not_upper_of_lower c hc)]

theorem C4_witness :
    ((isAsciiLower 'a' = true ∨ isAsciiDigit 'a' = true) ∧ isAsciiUpper 'B' = true ∧
      to_snake (String.mk ['a', 'B']) = String.mk ['a', '_', lowerChar 'B']) ∧
    (isAsciiUpper 'P' = true ∧ isAsciiUpper 'V' = true ∧ isAsciiLower 'i' = true ∧
      to_snake (String.mk ['P', 'V', 'i']) = String.mk [lowerChar 'P', '_', lowerChar 'V', 'i']) :=
  ⟨⟨Or.inl (by decide), by decide,
    C4_to_snake_spec.2.2.2.1 'a' 'B' (Or.inl (by decide)) (by decide)⟩,
   ⟨by decide, by decide, by decide,
    C4_to_snake_spec.2.2.2.2.1 'P' 'V' 'i' (by decide) (by decide) (by decide)⟩⟩

/-! ## Claim C5 -/

theorem sub1Go_id (fuel : Nat) :
    ∀ l : List Char, (∀ c ∈ l, isAsciiUpper c = false) → sub1Go fuel l = l := by
  induction fuel with
  | zero => intro l _; rfl
  | succ fuel ih =>
    intro l h
    cases l with
    | nil => rfl
    | cons c0 t =>
      cases t with
      | nil => rfl
      | cons c1 rest =>
        have h1 : isAsciiUpper c1 = false := h c1 (by simp)
        simp [sub1Go, h1, ih (c1 :: rest) (fun c hc => h c (List.mem_cons_of_mem _ hc))]

theorem sub2Go_id (fuel : Nat) :
    ∀ l : List Char, (∀ c ∈ l, isAsciiUpper c = false) → sub2Go fuel l = l := by
  induction fuel with
  | zero => intro l _; rfl
  | succ fuel ih =>
    intro l h
    cases l with
    | nil => rfl
    | cons c0 t =>
      cases t with
      | nil => rfl
      | cons c1 rest =>
        have h1 : isAsciiUpper c1 = false := h c1 (by simp)
        simp [sub2Go, h1, ih (c1 :: rest) (fun c hc => h c (List.mem_cons_of_mem _ hc))]

theorem map_dotToUnderscore_id :
    ∀ l : List Char, (∀ c ∈ l, c ≠ '.') → l.map dotToUnderscore = l := by
  intro l
  induction l with
  | nil => intro _; rfl
  | cons a t ih =>
    intro h
    simp [dotToUnderscore, h a (by simp), ih (fun c hc => h c (List.mem_cons_of_mem _ hc))]

theorem map_lowerChar_id :
    ∀ l : List Char, (∀ c ∈ l, isAsciiUpper c = false) → l.map lowerChar = l := by
  intro l
  induction l with
  | nil => intro _; rfl
  | cons a t ih =>
    intro h
    simp [lowerChar_of_not_upper a (h a (by simp)),
      ih (fun c hc => h c (List.mem_cons_of_mem _ hc))]

/-- Every character `to_snake` emits is neither an ASCII uppercase
letter nor a dot (the final `.replace('.', '_').lower()` guarantees it). -/
theorem to_snake_chars_clean (s : String) :
    ∀ c ∈ (to_snake s).data, isAsciiUpper c = false ∧ c ≠ '.' := by
  intro c hc
  rw [show (to_snake s).data = ((sub2 (sub1 s.data)).map dotToUnderscore).map lowerChar from rfl]
    at hc
  obtain ⟨c1, hc1, rfl⟩ := List.mem_map.mp hc
  refine ⟨isAsciiUpper_lowerChar c1, lowerChar_ne_dot c1 ?_⟩
  obtain ⟨c2, hc2, rfl⟩ := List.mem_map.mp hc1
  exact dotToUnderscore_ne_dot c2

/-- C5: field-name canonicalization is idempotent.  The output of
`to_snake` contains no uppercase letter and no dot, so neither regex
matches again, the dot replacement finds nothing and lowercasing is the
identity. -/
theorem C5_to_snake_idempotent (s : String) : to_snake (to_snake s) = to_snake s := by
  have hclean := to_snake_chars_clean s
  have hup : ∀ c ∈ (to_snake s).data, isAsciiUpper c = false := fun c hc => (hclean c hc).1
  have hdot : ∀ c ∈ (to_snake s).data, c ≠ '.' := fun c hc => (hclean c hc).2
  have h1 : sub1 (to_snake s).data = (to_snake s).data := sub1Go_id _ _ hup
  have h2 : sub2 (to_snake s).data = (to_snake s).data := sub2Go_id _ _ hup
  show String.mk (((sub2 (sub1 (to_snake s).data)).map dotToUnderscore).map lowerChar) = to_snake s
  rw [h1, h2, map_dotToUnderscore_id _ hdot, map_lowerChar_id _ hup]

/-! ## Claim C2 -/

theorem trafficLadder_all_none (api : List String → Except String ReportResponse)
    (clock : Nat → Timestamp) :
    ∀ cands : List (List String), (∀ d ∈ cands, candResult api clock d = none) →
      trafficLadder api clock cands = [] := by
  intro cands
  induction cands with
  | nil => intro _; rfl
  | cons d rest ih =>
    intro h
    simp only [trafficLadder, h d (by simp)]
    exact ih (fun d' hd' => h d' (List.mem_cons_of_mem _ hd'))

theorem trafficLadder_first_some (api : List String → Except String ReportResponse)
    (clock : Nat → Timestamp) :
    ∀ (pre : List (List String)) (d : List String) (rest : List (List String))
      (out : List Record),
      (∀ p ∈ pre, candResult api clock p = none) → candResult api clock d = some out →
      trafficLadder api clock (pre ++ d :: rest) = out := by
  intro pre
  induction pre with
  | nil =>
    intro d rest out _ hd
    simp [trafficLadder, hd]
  | cons p pre ih =>
    intro d rest out hpre hd
    simp only [List.cons_append, trafficLadder, hpre p (by simp)]
    exact ih d rest out (fun p' hp' => hpre p' (List.mem_cons_of_mem _ hp')) hd

/-- Post-processing one parsed record of the device-category tier:
`device_category` is renamed to `source`, the absent `medium` and
`campaign` are synthesized as `"(not set)"`, and the kept columns are
selected in order. -/
theorem devRecord_processed (x y z w : Value) :
    selectColsFrom (ensureCols (renameRecord
      [("device_category", x), ("active_users", y), ("report_type", z), ("extracted_at", w)]))
      keepCols =
    some [("source", x), ("medium", .str notSet), ("campaign", .str notSet),
          ("active_users", y), ("report_type", z), ("extracted_at", w)] := rfl

/-- Parsing and post-processing the rows of a well-formed
device-category response: every output record maps `source` to the
row's device value and `medium`, `campaign` to the sentinel. -/
theorem dev_rows_process (clock : Nat → Timestamp) :
    ∀ (rows : List ReportRow) (i : Nat),
      (∀ row ∈ rows, ∃ v m, row.dimension_values = [v] ∧ v ≠ "" ∧
        row.metric_values = [m] ∧ (normMetric m).isSome) →
      ∃ recs outs,
        parseRowsFrom ["device_category"] ["active_users"] "traffic_sources" clock i rows =
          some recs ∧
        recs.length = rows.length ∧
        processTraffic recs = some outs ∧
        List.Forall₂ (fun (row : ReportRow) (o : Record) =>
          alookup "source" o = some (.str (row.dimension_values.headD "")) ∧
          alookup "medium" o = some (.str notSet) ∧
          alookup "campaign" o = some (.str notSet)) rows outs := by
  intro rows
  induction rows with
  | nil =>
    intro i _
    exact ⟨[], [], rfl, rfl, rfl, List.Forall₂.nil⟩
  | cons row rest ih =>
    intro i hshape
    obtain ⟨v, m, hdv, hv, hmv, hms⟩ := hshape row (by simp)
    obtain ⟨q, hq⟩ := Option.isSome_iff_exists.mp hms
    obtain ⟨recs', outs', hparse', hlen', hproc', hfa'⟩ :=
      ih (i + 1) (fun r hr => hshape r (List.mem_cons_of_mem _ hr))
    have hrow : parseRow ["device_category"] ["active_users"] row "traffic_sources" (clock i) =
        some [("device_category", normDim v), ("active_users", .num q),
              ("report_type", .str "traffic_sources"), ("extracted_at", .time (clock i))] := by
      simp [parseRow, hdv, hmv, buildDims, buildMets, hq, dictInsert]
    refine ⟨[("device_category", normDim v), ("active_users", .num q),
             ("report_type", .str "traffic_sources"), ("extracted_at", .time (clock i))] :: recs',
            [("source", normDim v), ("medium", .str notSet), ("campaign", .str notSet),
             ("active_users", .num q), ("report_type", .str "traffic_sources"),
             ("extracted_at", .time (clock i))] :: outs', ?_, ?_, ?_, ?_⟩
    · simp only [parseRowsFrom, hrow, hparse']
    · simp [hlen']
    · simp only [processTraffic, devRecord_processed, hproc']
    · refine List.Forall₂.cons ⟨?_, rfl, rfl⟩ hfa'
      simp [alookup, normDim, hv, hdv]

/-- C2: `get_realtime_traffic_sources` walks the fallback ladder in its
fixed order.  Conjunct 1: if every candidate fails or yields nothing,
the result is empty.  Conjunct 2: the first candidate that produces a
non-empty processed frame wins, and its output is returned unchanged.
Conjunct 3: when only the device-category tier succeeds (both
session-dimension candidates fail or yield nothing), every resulting
record has `source` equal to the device category value and `medium`,
`campaign` both `"(not set)"`, one record per response row. -/
theorem C2_traffic_fallback :
    (∀ (api : List String → Except String ReportResponse) (clock : Nat → Timestamp),
      (∀ d ∈ trafficCandidates, candResult api clock d = none) →
      get_realtime_traffic_sources api clock = []) ∧
    (∀ (api : List String → Except String ReportResponse) (clock : Nat → Timestamp)
      (pre : List (List String)) (d : List String) (rest : List (List String))
      (out : List Record),
      trafficCandidates = pre ++ d :: rest →
      (∀ p ∈ pre, candResult api clock p = none) →
      candResult api clock d = some out →
      get_realtime_traffic_sources api clock = out) ∧
    (∀ (api : List String → Except String ReportResponse) (clock : Nat → Timestamp)
      (resp : ReportResponse),
      candResult api clock ["sessionSource", "sessionMedium", "sessionCampaign"] = none →
      candResult api clock ["sessionSource", "sessionMedium"] = none →
      api ["deviceCategory"] = .ok resp →
      resp.dimension_headers = ["deviceCategory"] →
      resp.metric_headers = ["activeUsers"] →
      resp.rows ≠ [] →
      (∀ row ∈ resp.rows, ∃ v m, row.dimension_values = [v] ∧ v ≠ "" ∧
        row.metric_values = [m] ∧ (normMetric m).isSome) →
      List.Forall₂ (fun (row : ReportRow) (o : Record) =>
        alookup "source" o = some (.str (row.dimension_values.headD "")) ∧
        alookup "medium" o = some (.str notSet) ∧
        alookup "campaign" o = some (.str notSet))
        resp.rows (get_realtime_traffic_sources api clock)) := by
  refine ⟨?_, ?_, ?_⟩
  · intro api clock h
    exact trafficLadder_all_none api clock trafficCandidates h
  · intro api clock pre d rest out hcands hpre hd
    unfold get_realtime_traffic_sources
    rw [hcands]
    exact trafficLadder_first_some api clock pre d rest out hpre hd
  · intro api clock resp hc0 hc1 hapi hdh hmh hrows hshape
    obtain ⟨recs, outs, hparse, hlen, hproc, hfa⟩ := dev_rows_process clock resp.rows 0 hshape
    have hprr : parseResponseRows resp "traffic_sources" clock = some recs := by
      unfold parseResponseRows
      rw [hdh, hmh,
        show (["deviceCategory"] : List String).map to_snake = ["device_category"] from by decide,
        show (["activeUsers"] : List String).map to_snake = ["active_users"] from by decide]
      exact hparse
    have hie : resp.rows.isEmpty = false := by
      cases hrs : resp.rows with
      | nil => exact absurd hrs hrows
      | cons a l => simp
    have hdf : parse_response_to_df resp "traffic_sources" clock = recs := by
      simp [parse_response_to_df, hie, hprr]
    have hrne : recs.isEmpty = false := by
      cases hr : recs with
      | nil =>
        rw [hr] at hlen
        exact absurd hlen.symm (by simpa using hrows)
      | cons a l => simp
    have hcand : candResult api clock ["deviceCategory"] = some outs := by
      simp [candResult, hapi, hdf, hrne, hproc]
    have hget : get_realtime_traffic_sources api clock = outs := by
      unfold get_realtime_traffic_sources
      rw [show trafficCandidates =
          [["sessionSource", "sessionMedium", "sessionCampaign"],
           ["sessionSource", "sessionMedium"]] ++ ["deviceCategory"] :: [["country"]] from rfl]
      refine trafficLadder_first_some api clock _ _ _ _ ?_ hcand
      intro p hp
      simp only [List.mem_cons, List.not_mem_nil, or_false] at hp
      rcases hp with hp | hp
      · rw [hp]; exact hc0
      · rw [hp]; exact hc1
    rw [hget]
    exact hfa

/-- A device-category-only response for C2's witness. -/
def c2resp : ReportResponse := ⟨["deviceCategory"], ["activeUsers"], [⟨["mobile"], ["7"]⟩]⟩

/-- An API oracle that rejects every dimension set except `deviceCategory`. -/
def c2api : List String → Except String ReportResponse := fun dims =>
  if dims = ["deviceCategory"] then .ok c2resp else .error "unsupported dimensions"

/-- An API oracle on which every request fails. -/
def c2failApi : List String → Except String ReportResponse := fun _ => .error "unavailable"

/-- The records the ladder produces from `c2api`. -/
def c2outs : List Record :=
  [[("source", .str "mobile"), ("medium", .str notSet), ("campaign", .str notSet),
    ("active_users", .num ⟨7, 0⟩), ("report_type", .str "traffic_sources"),
    ("extracted_at", .time 0)]]

theorem C2_witness :
    ((∀ d ∈ trafficCandidates, candResult c2failApi (fun i => i) d = none) ∧
     get_realtime_traffic_sources c2failApi (fun i => i) = []) ∧
    (trafficCandidates =
       [["sessionSource", "sessionMedium", "sessionCampaign"], ["sessionSource", "sessionMedium"]] ++
         ["deviceCategory"] :: [["country"]] ∧
     (∀ p ∈ [["sessionSource", "sessionMedium", "sessionCampaign"],
             ["sessionSource", "sessionMedium"]], candResult c2api (fun i => i) p = none) ∧
     candResult c2api (fun i => i) ["deviceCategory"] = some c2outs ∧
     get_realtime_traffic_sources c2api (fun i => i) = c2outs) ∧
    (candResult c2api (fun i => i) ["sessionSource", "sessionMedium", "sessionCampaign"] = none ∧
     candResult c2api (fun i => i) ["sessionSource", "sessionMedium"] = none ∧
     c2api ["deviceCategory"] = .ok c2resp ∧
     c2resp.dimension_headers = ["deviceCategory"] ∧
     c2resp.metric_headers = ["activeUsers"] ∧
     c2resp.rows ≠ [] ∧
     (∀ row ∈ c2resp.rows, ∃ v m, row.dimension_values = [v] ∧ v ≠ "" ∧
       row.metric_values = [m] ∧ (normMetric m).isSome) ∧
     List.Forall₂ (fun (row : ReportRow) (o : Record) =>
       alookup "source" o = some (.str (row.dimension_values.headD "")) ∧
       alookup "medium" o = some (.str notSet) ∧
       alookup "campaign" o = some (.str notSet))
       c2resp.rows (get_realtime_traffic_sources c2api (fun i => i))) := by
  have hshape : ∀ row ∈ c2resp.rows, ∃ v m, row.dimension_values = [v] ∧ v ≠ "" ∧
      row.metric_values = [m] ∧ (normMetric m).isSome := by
    intro row hrow
    simp only [c2resp, List.mem_singleton] at hrow
    subst hrow
    exact ⟨"mobile", "7", rfl, by decide, rfl, by decide⟩
  refine ⟨⟨by decide, C2_traffic_fallback.1 c2failApi (fun i => i) (by decide)⟩,
          ⟨by decide, by decide, by decide,
           C2_traffic_fallback.2.1 c2api (fun i => i)
             [["sessionSource", "sessionMedium", "sessionCampaign"],
              ["sessionSource", "sessionMedium"]]
             ["deviceCategory"] [["country"]] c2outs (by decide) (by decide) (by decide)⟩,
          ⟨by decide, by decide, rfl, by decide, by decide, by decide, hshape,
           C2_traffic_fallback.2.2 c2api (fun i => i) c2resp
             (by decide) (by decide) rfl (by decide) (by decide) (by decide) hshape⟩⟩

/-! ## Claim C6 -/

theorem collectCounts_ok (w : StatusWorld) :
    ∀ (ts : List String) (cnt : String → Nat),
      (∀ t ∈ ts, w.countOf t = .ok (cnt t)) →
      collectCounts w ts = .ok (ts.map (fun t => (t, cnt t))) := by
  intro ts
  induction ts with
  | nil => intro _ _; rfl
  | cons t rest ih =>
    intro cnt h
    simp only [collectCounts, h t (by simp),
      ih cnt (fun t' ht' => h t' (List.mem_cons_of_mem _ ht')), List.map_cons]

/-- C6 (amended): once a database connection has been acquired,
`check_database_status` never raises — every query failure inside the
`try` becomes a structured error-status object, and on full success it
returns a status-ok object listing all base tables with their row
counts; but a failure while acquiring the connection itself, which
happens before the `try`, propagates to the caller. -/
theorem C6_status_check (w : StatusWorld) :
    (w.conn = .ok () → ∃ s, check_database_status w = .ok s) ∧
    (∀ (ts : List String) (cnt : String → Nat),
      w.conn = .ok () → w.baseTables = .ok ts →
      (∀ t ∈ ts, w.countOf t = .ok (cnt t)) →
      check_database_status w = .ok (.ok (ts.map (fun t => (t, cnt t))))) ∧
    (∀ e, w.conn = .error e → check_database_status w = .error e) := by
  refine ⟨?_, ?_, ?_⟩
  · intro hc
    unfold check_database_status
    rw [hc]
    cases hb : w.baseTables with
    | error e => exact ⟨.err e, by simp [hb]⟩
    | ok ts =>
      cases hcc : collectCounts w ts with
      | error e => exact ⟨.err e, by simp [hb, hcc]⟩
      | ok stats => exact ⟨.ok stats, by simp [hb, hcc]⟩
  · intro ts cnt hc hb hcnt
    unfold check_database_status
    simp [hc, hb, collectCounts_ok w ts cnt hcnt]
  · intro e hc
    unfold check_database_status
    rw [hc]

/-- A world in which `psycopg2.connect` raises. -/
def c6failWorld : StatusWorld := ⟨.error "connection refused", .ok [], fun _ => .ok 0⟩

/-- C6 counterexample: when acquiring the connection fails,
`check_database_status` does not return a status object — the exception
propagates (`get_connection()` runs before the `try` block). -/
theorem C6_counterexample :
    check_database_status c6failWorld = .error "connection refused" := rfl

/-- A world in which everything succeeds. -/
def c6okWorld : StatusWorld :=
  ⟨.ok (), .ok ["conversions", "overview"],
   fun t => .ok (if t = "conversions" then 3 else 5)⟩

theorem C6_witness :
    (c6okWorld.conn = .ok () ∧ c6okWorld.baseTables = .ok ["conversions", "overview"] ∧
     (∀ t ∈ ["conversions", "overview"],
        c6okWorld.countOf t = .ok (if t = "conversions" then 3 else 5))) ∧
    check_database_status c6okWorld =
      .ok (.ok (["conversions", "overview"].map
        (fun t => (t, if t = "conversions" then 3 else 5)))) :=
  ⟨⟨rfl, rfl, by
    intro t ht
    simp only [List.mem_cons, List.not_mem_nil, or_false] at ht
    rcases ht with rfl | rfl <;> rfl⟩,
   (C6_status_check c6okWorld).2.1 ["conversions", "overview"]
     (fun t => if t = "conversions" then 3 else 5) rfl rfl (by
       intro t ht
       simp only [List.mem_cons, List.not_mem_nil, or_false] at ht
       rcases ht with rfl | rfl <;> rfl)⟩

/-! ## Claim C7 -/

/-- C7: `insert_dataframe` on an empty batch is a no-op that returns
without error whatever the engine would have said; on a non-empty batch
it either appends the whole batch in one transaction without raising, or
— exactly when the database rejected it — leaves the table unchanged and
re-raises to the caller.  No partial application exists. -/
theorem C7_insert_dataframe (df table : List Record) (toSqlOk : Bool) :
    (df = [] → insert_dataframe df table toSqlOk = ⟨table, false⟩) ∧
    (df ≠ [] →
      (insert_dataframe df table toSqlOk = ⟨table ++ df, false⟩ ∧ toSqlOk = true) ∨
      (insert_dataframe df table toSqlOk = ⟨table, true⟩ ∧ toSqlOk = false)) := by
  constructor
  · intro h
    subst h
    simp [insert_dataframe]
  · intro h
    cases toSqlOk with
    | true => exact Or.inl ⟨by simp [insert_dataframe, to_sql_append, h], rfl⟩
    | false => exact Or.inr ⟨by simp [insert_dataframe, to_sql_append, h], rfl⟩

theorem C7_witness :
    (([[("event_name", Value.str "login")]] : List Record) ≠ [] ∧
      ((insert_dataframe [[("event_name", Value.str "login")]] [] true =
          ⟨[] ++ [[("event_name", Value.str "login")]], false⟩ ∧ true = true) ∨
       (insert_dataframe [[("event_name", Value.str "login")]] [] true = ⟨[], true⟩ ∧
          true = false))) ∧
    (([] : List Record) = [] ∧ insert_dataframe [] [] false = ⟨[], false⟩) :=
  ⟨⟨by decide, (C7_insert_dataframe [[("event_name", Value.str "login")]] [] true).2 (by decide)⟩,
   ⟨rfl, (C7_insert_dataframe [] [] false).1 rfl⟩⟩

/-! ## Claim C8 -/

theorem cleanup_all_ok (tables : TableMap) (h : Nat) (now : ℤ) (delOk : String → Bool)
    (hall : ∀ u ∈ tables_to_manage, delOk u = true) (t : String) (ht : t ∈ tables_to_manage) :
    cleanup_old_data tables h now delOk true t =
      (tables t).filter (fun r => !(r.extracted_at < now - (h : ℤ) * 3600)) := by
  have h1 := hall "active_users_by_page" (by decide)
  have h2 := hall "events_by_page" (by decide)
  have h3 := hall "conversions" (by decide)
  have h4 := hall "traffic_sources" (by decide)
  have h5 := hall "overview" (by decide)
  simp only [tables_to_manage, List.mem_cons, List.not_mem_nil, or_false] at ht
  unfold cleanup_old_data tables_to_manage
  simp only [List.foldl_cons, List.foldl_nil, h1, h2, h3, h4, h5, if_true]
  rcases ht with rfl | rfl | rfl | rfl | rfl <;> simp [deleteOld]

/-- C8 (amended): provided every per-table `DELETE` and the final commit
succeed, `purgeOlderThan(24)` leaves, in every managed table, exactly
the rows whose `extracted_at` is at least now − 24h: no survivor is
older than the cutoff and every in-window row survives unchanged.  (A
caught per-table failure, by contrast, leaves that table's old rows in
place — see the counterexample.) -/
theorem C8_cleanup_retention (tables : TableMap) (now : ℤ) (delOk : String → Bool) (t : String)
    (hall : ∀ u ∈ tables_to_manage, delOk u = true) (ht : t ∈ tables_to_manage) :
    (∀ r ∈ cleanup_old_data tables 24 now delOk true t, now - 24 * 3600 ≤ r.extracted_at) ∧
    (∀ r ∈ tables t, now - 24 * 3600 ≤ r.extracted_at →
      r ∈ cleanup_old_data tables 24 now delOk true t) := by
  rw [cleanup_all_ok tables 24 now delOk hall t ht]
  constructor
  · intro r hr
    have := (List.mem_filter.mp hr).2
    simp only [Bool.not_eq_true', decide_eq_false_iff_not, Int.not_lt] at this
    simpa using this
  · intro r hr hwin
    refine List.mem_filter.mpr ⟨hr, ?_⟩
    simp only [Bool.not_eq_true', decide_eq_false_iff_not, Int.not_lt]
    simpa using hwin

/-- A store with one stale row in `overview`. -/
def c8tables : TableMap := fun n => if n = "overview" then [⟨-100000, "stale"⟩] else []

/-- A run in which only the `DELETE` on `overview` fails. -/
def c8delOk : String → Bool := fun t => if t = "overview" then false else true

/-- C8 counterexample: the `DELETE` on `overview` fails; the failure is
caught and logged and the run completes, but the surviving `overview`
row is older than now − 24h — refuting the unconditional claim. -/
theorem C8_counterexample :
    ("overview" ∈ tables_to_manage) ∧
    cleanup_old_data c8tables 24 0 c8delOk true "overview" = [⟨-100000, "stale"⟩] ∧
    (⟨-100000, "stale"⟩ : TsRow).extracted_at < 0 - 24 * 3600 :=
  ⟨by decide, rfl, by decide⟩

/-- A store with one stale and one fresh row in `conversions`. -/
def c8okTables : TableMap :=
  fun n => if n = "conversions" then [⟨-100000, "stale"⟩, ⟨-10, "fresh"⟩] else []

theorem C8_witness :
    ((∀ u ∈ tables_to_manage, (fun _ => true : String → Bool) u = true) ∧
     "conversions" ∈ tables_to_manage) ∧
    ((∀ r ∈ cleanup_old_data c8okTables 24 0 (fun _ => true) true "conversions",
        (0 : ℤ) - 24 * 3600 ≤ r.extracted_at) ∧
     (∀ r ∈ c8okTables "conversions", (0 : ℤ) - 24 * 3600 ≤ r.extracted_at →
        r ∈ cleanup_old_data c8okTables 24 0 (fun _ => true) true "conversions")) :=
  ⟨⟨fun _ _ => rfl, by decide⟩,
   C8_cleanup_retention c8okTables 0 (fun _ => true) "conversions" (fun _ _ => rfl) (by decide)⟩

/-! ## Claim C9 -/

/-- C9 (amended): `create_aggregated_views` carries
`trigger_rule='none_failed_min_one_success'`, so it runs exactly when no
extraction task failed and at least one succeeded — equivalently, since
each extraction either succeeds or fails once the credentials check
passed, when the credentials check and all five extractions succeeded.
It does not run whenever merely one extraction succeeded while another
failed.  `cleanup_old_data` carries `trigger_rule='all_done'` and runs
in every completed run. -/
theorem C9_dag_trigger_rules (inp : DagRunInput) :
    (createViewsRuns inp = true ↔
      ((∀ s ∈ extractionStates inp, s ≠ TaskState.failed) ∧
       ∃ s ∈ extractionStates inp, s = TaskState.success)) ∧
    (createViewsRuns inp =
      (inp.credsOk && inp.activeUsersOk && inp.eventsByPageOk && inp.conversionsOk &&
        inp.trafficSourcesOk && inp.overviewOk)) ∧
    cleanupRuns inp = true := by
  rcases inp with ⟨c, a, b, d, e, f, g⟩
  cases c <;> cases a <;> cases b <;> cases d <;> cases e <;> cases f <;> cases g <;>
    exact ⟨by decide, by decide, rfl⟩

/-- A run where one extraction fails and the other four succeed. -/
def c9inp : DagRunInput :=
  { credsOk := true, activeUsersOk := false, eventsByPageOk := true, conversionsOk := true,
    trafficSourcesOk := true, overviewOk := true, viewsOk := true }

/-- C9 counterexample: at least one extraction task succeeded, yet
`create_aggregated_views` does not run, because its trigger rule is
`none_failed_min_one_success`, not `one_success`; cleanup still runs. -/
theorem C9_counterexample :
    TaskState.success ∈ extractionStates c9inp ∧
    TaskState.failed ∈ extractionStates c9inp ∧
    createViewsRuns c9inp = false ∧
    cleanupRuns c9inp = true := by decide

/-! ## Claim C10 -/

theorem mem_foldl_create :
    ∀ (ts : List String) (s : SchemaState) (t : String),
      t ∈ ts ∨ t ∈ s.tablesPresent → t ∈ (ts.foldl createTableIfNotExists s).tablesPresent := by
  intro ts
  induction ts with
  | nil =>
    intro s t h
    rcases h with h | h
    · exact absurd h (by simp)
    · simpa using h
  | cons u ts ih =>
    intro s t h
    have hu : ∀ s' : SchemaState, t ∈ s'.tablesPresent →
        t ∈ (createTableIfNotExists s' u).tablesPresent := by
      intro s' hs'
      unfold createTableIfNotExists
      split
      · exact hs'
      · simp [hs']
    simp only [List.foldl_cons]
    rcases h with h | h
    · rcases List.mem_cons.mp h with rfl | h
      · refine ih _ t (Or.inr ?_)
        unfold createTableIfNotExists
        split
        · assumption
        · simp
      · exact ih _ t (Or.inl h)
    · exact ih _ t (Or.inr (hu s h))

/-- C10: constructing a `PostgreSQLHandler` runs `init_tables` inside
`__init__`; if that raises, construction fails and no handler value
exists, so every gateway operation — which needs a constructed handler —
runs against a schema in which all five managed tables have been
ensured. -/
theorem C10_handler_init (db : SchemaState) (initOk : Bool) :
    (∀ (hd : PostgreSQLHandlerState) (db2 : SchemaState),
      mkPostgreSQLHandler db initOk = .ok (hd, db2) →
      (∀ t ∈ tables_to_manage, t ∈ db2.tablesPresent) ∧ hd.schemaTables = db2.tablesPresent) ∧
    (initOk = false → mkPostgreSQLHandler db initOk = .error "error initializing tables") := by
  constructor
  · intro hd db2 hmk
    cases initOk with
    | false => simp [mkPostgreSQLHandler, init_tables] at hmk
    | true =>
      have hmk' : (Except.ok (⟨(tables_to_manage.foldl createTableIfNotExists db).tablesPresent⟩,
          tables_to_manage.foldl createTableIfNotExists db) :
          Except String (PostgreSQLHandlerState × SchemaState)) = .ok (hd, db2) := by
        simpa [mkPostgreSQLHandler, init_tables] using hmk
      injection hmk' with hpair
      cases hpair
      constructor
      · intro t htm
        exact mem_foldl_create tables_to_manage db t (Or.inl htm)
      · rfl
  · intro h
    subst h
    rfl

theorem C10_witness :
    (mkPostgreSQLHandler ⟨[]⟩ true = .ok (⟨tables_to_manage⟩, ⟨tables_to_manage⟩) ∧
     ((∀ t ∈ tables_to_manage, t ∈ (⟨tables_to_manage⟩ : SchemaState).tablesPresent) ∧
      (⟨tables_to_manage⟩ : PostgreSQLHandlerState).schemaTables =
        (⟨tables_to_manage⟩ : SchemaState).tablesPresent)) ∧
    (false = false ∧ mkPostgreSQLHandler ⟨[]⟩ false = .error "error initializing tables") :=
  ⟨⟨rfl, (C10_handler_init ⟨[]⟩ true).1 ⟨tables_to_manage⟩ ⟨tables_to_manage⟩ rfl⟩,
   ⟨rfl, (C10_handler_init ⟨[]⟩ false).2 rfl⟩⟩

end GA4Pipeline
